import Mathlib

/-!
A shallow embedding of the video/audio editing pipeline implemented in
`src/components/Editor/VideoEditor/VideoEditor.py`, together with theorems
settling the specification's claims about it.

Modelling conventions:
* Python floats are modelled as exact rationals (`ℚ`); the only places where
  binary floating point could diverge from exact arithmetic are noted in
  comments next to the definition concerned.
* Python strings are Lean `String`s; where a character-level argument is
  needed they are modelled as `List Char`.
* Python `raise ValueError(...)` before the external tool is invoked is
  modelled by returning `Except.error msg`; a successful construction of the
  external command line is `Except.ok cmd`.  An `Except.error` result means
  no subprocess is spawned.
* Filesystem state (the tracked temp-file set, files on disk, the workspace
  directory) is modelled explicitly by `EditorState`; exceptions that the
  source swallows (`try ... except: pass` around file removal) are simply
  absent from the model.
-/

namespace VE

/-! ## Encoder selection (`VideoEditor._choose_encoder`) -/

/-- Python `cpu_count or 1`: `None` and `0` are falsy and give the default. -/
def pyOrNat (o : Option Nat) (d : Nat) : Nat :=
  match o with
  | none => d
  | some n => if n = 0 then d else n

/-- `VideoEditor._choose_encoder`.  `gpuAvailable` models
`_HAS_TORCH and torch.cuda.is_available()`; `cpuCount` models
`os.cpu_count()` (an optional int).  Both branches of the source return the
same software-codec tuple; the NVENC line is commented out in the source. -/
def choose_encoder (gpuAvailable : Bool) (cpuCount : Option Nat) :
    String × List String :=
  if gpuAvailable then
    ("libx264", ["-preset", "fast", "-crf", "23", "-threads",
      toString (max 1 (pyOrNat cpuCount 1))])
  else
    ("libx264", ["-preset", "fast", "-crf", "23", "-threads",
      toString (max 1 (pyOrNat cpuCount 1))])

/-! ## Media probe (`VideoEditor.get_duration`) -/

/-- One entry of the `streams` list of an ffprobe result, restricted to the
fields `get_duration` reads. -/
structure FFStream where
  codec_type : String
  duration : Option String
deriving DecidableEq

/-- The ffprobe metadata `get_duration` reads: `format.duration` (if the key
is present) and the stream list. -/
structure FFProbe where
  format_duration : Option String
  streams : List FFStream
deriving DecidableEq

/-- Python truthiness of `d.get(key)` for a string-valued key: missing key
(`None`) and the empty string are falsy. -/
def pyTruthyStr (o : Option String) : Bool :=
  match o with
  | none => false
  | some s => !s.isEmpty

/-- The stream-fallback loop of `get_duration`:
`for s in streams: if codec_type == "video" and s.get("duration"): return float(...)`,
else `return 0.0`.  `parse` models Python's `float` conversion of the
duration string. -/
def get_duration_fallback (parse : String → ℚ) : List FFStream → ℚ
  | [] => 0
  | s :: rest =>
    if s.codec_type == "video" && pyTruthyStr s.duration then
      parse (s.duration.getD "")
    else
      get_duration_fallback parse rest

/-- `VideoEditor.get_duration`, after the ffprobe call has produced `meta`. -/
def get_duration (parse : String → ℚ) (meta : FFProbe) : ℚ :=
  match meta.format_duration with
  | some s => if !s.isEmpty then parse s else get_duration_fallback parse meta.streams
  | none => get_duration_fallback parse meta.streams

/-- The specification's description of the duration lookup, written from the
spec's words ("reads container-level duration; if absent, falls back to the
first video stream's own duration field; if still absent, returns 0.0"),
structured as option composition rather than the source's control flow. -/
def truthyOpt (o : Option String) : Option String :=
  match o with
  | none => none
  | some s => if s.isEmpty then none else some s

/-- Spec-side duration function (see `truthyOpt`): container duration if
present, else the first present video-stream duration, else `0`. -/
def spec_duration (parse : String → ℚ) (meta : FFProbe) : ℚ :=
  match truthyOpt meta.format_duration with
  | some s => parse s
  | none =>
    match (meta.streams.filterMap
        (fun s => if s.codec_type == "video" then truthyOpt s.duration else none)).head? with
    | some d => parse d
    | none => 0

/-! ## Temp-file tracking and cleanup (`__init__`, `_mktemp`, `cleanup`) -/

/-- The state a `VideoEditor` instance owns, together with the relevant part
of the filesystem.  `temp_files` is the tracked set `self._temp_files`
(modelled as a duplicate-free list with `List.insert` as `set.add`), `disk`
is the set of files existing on disk, `dir_on_disk` whether
`os.path.isdir(self.temp_dir)` holds, and `counter` feeds fresh names for
`tempfile.mkstemp`. -/
structure EditorState where
  temp_dir : String
  own_temp : Bool
  temp_files : List String
  disk : List String
  counter : Nat
  dir_on_disk : Bool
deriving DecidableEq

/-- `VideoEditor._mktemp`: create a fresh empty file in the workspace, track
it, and return its path. -/
def mktemp (st : EditorState) (suffix : String) : String × EditorState :=
  let path := st.temp_dir ++ "/tmp" ++ toString st.counter ++ suffix
  (path, { st with
    counter := st.counter + 1,
    temp_files := st.temp_files.insert path,
    disk := st.disk.insert path })

/-- `VideoEditor.cleanup`: remove every tracked file from disk (per-file
errors are swallowed in the source, so the model has no failure path),
discard all of them from the tracked set, and, when the workspace directory
was self-created and still exists, remove it recursively (`shutil.rmtree`,
modelled as dropping the directory flag and every file under the
directory). -/
def cleanup (st : EditorState) : EditorState :=
  let st1 : EditorState :=
    { st with
      disk := st.disk.filter (fun p => !st.temp_files.contains p),
      temp_files := [] }
  if st1.own_temp && st1.dir_on_disk then
    { st1 with
      dir_on_disk := false,
      disk := st1.disk.filter (fun p => !st1.temp_dir.isPrefixOf p) }
  else st1

/-! ## Audio replacement (`VideoEditor.replace_audio`) -/

/-- Python's `f"{x:.3f}"` for a nonnegative rational: fixed three decimal
places.  (Python rounds exact midpoints half-to-even; `round` here rounds
half-up.  The difference can only show at exact `0.0005`-midpoints, which no
claim exercises.) -/
def format3f (q : ℚ) : String :=
  let m : ℤ := round (q * 1000)
  let ip := m / 1000
  let fp := (m % 1000).toNat
  let fs := toString fp
  let pad := if fp < 10 then "00" else if fp < 100 then "0" else ""
  toString ip ++ "." ++ pad ++ fs

/-- The ffmpeg command `replace_audio` builds once the two durations have
been probed.  First branch: `start_time >= video_duration` maps only the
video stream and passes `-an` (no audio).  Otherwise either the fast path
(no delay needed and the audio fits) or the `adelay`/`atrim` filter path is
taken. -/
def replace_audio_cmd (input_path audio_path output_path : String)
    (video_duration audio_duration start_time : ℚ) : List String :=
  if video_duration ≤ start_time then
    ["ffmpeg", "-y",
     "-i", input_path,
     "-map", "0:v",
     "-c:v", "copy",
     "-an",
     output_path]
  else
    let delay_ms : ℤ := round (start_time * 1000)
    if delay_ms ≤ 0 && !(video_duration - start_time < audio_duration) then
      ["ffmpeg", "-y",
       "-i", input_path,
       "-i", audio_path,
       "-map", "0:v:0",
       "-map", "1:a:0",
       "-c:v", "copy",
       "-c:a", "aac", "-b:a", "192k",
       output_path]
    else
      let vd := format3f video_duration
      let filter_complex :=
        s!"[1:a]adelay={delay_ms}:all=1,atrim=0:{vd},asetpts=PTS-STARTPTS[aud]"
      ["ffmpeg", "-y",
       "-i", input_path,
       "-i", audio_path,
       "-filter_complex", filter_complex,
       "-map", "0:v:0",
       "-map", "[aud]",
       "-c:v", "copy",
       "-c:a", "aac", "-b:a", "192k",
       output_path]

/-- `VideoEditor.replace_audio` as a state transition: resolve the output
path (a fresh tracked temp file when the caller supplied none), build the
command, and update the model filesystem.  The source adds `output_path` to
`self._temp_files` after running the no-audio branch — unconditionally, so
even a caller-supplied output path lands in the tracked set there.  Returns
(resolved output path, command run, final state). -/
def replace_audio_step (st : EditorState) (input_path audio_path : String)
    (output_path : Option String)
    (video_duration audio_duration start_time : ℚ) :
    String × List String × EditorState :=
  let res : String × EditorState :=
    match output_path with
    | none => mktemp st ".mp4"
    | some p => (p, st)   -- os.makedirs on the parent: no tracked-set effect
  let out := res.1
  let st1 := res.2
  let cmd := replace_audio_cmd input_path audio_path out
    video_duration audio_duration start_time
  if video_duration ≤ start_time then
    (out, cmd, { st1 with
      temp_files := st1.temp_files.insert out,
      disk := st1.disk.insert out })
  else
    (out, cmd, { st1 with disk := st1.disk.insert out })

/-- A concrete editor instance fresh from `VideoEditor.__init__` with a
self-created workspace (`temp_dir=None`). -/
def freshEditor : EditorState :=
  { temp_dir := "/tmp/veditor_abc123"
    own_temp := true
    temp_files := []
    disk := []
    counter := 0
    dir_on_disk := true }

/-! ## Caption text escaping (`insert_captions._escape`) -/

/-- Python `str.replace` with a single-character pattern, on strings viewed
as character lists. -/
def replaceChar (c : Char) (r : List Char) (s : List Char) : List Char :=
  s.flatMap (fun x => if x = c then r else [x])

/-- `insert_captions._escape`: the ten sequential `str.replace` calls of the
source, in source order.  Raw-string contents of the replacements, spelt as
character lists: `":" ↦ "\\:"` (two backslashes and the colon), `";" ↦ "\;"`,
`"\"" ↦ "\\\""` (backslash, double quote), `"," ↦ "\,"`, `"'" ↦ "’"`
(the Unicode right single quotation mark), `"%" ↦ "\\\\\%"` (five
backslashes and the percent), and backslash-escaped forms of the four
bracket/brace characters. -/
def escapeText (s : List Char) : List Char :=
  s |> replaceChar ':' ['\\', '\\', ':']
    |> replaceChar ';' ['\\', ';']
    |> replaceChar '\x22' ['\\', '\x22']
    |> replaceChar ',' ['\\', ',']
    |> replaceChar '\x27' ['’']
    |> replaceChar '%' ['\\', '\\', '\\', '\\', '\\', '%']
    |> replaceChar '[' ['\\', '[']
    |> replaceChar ']' ['\\', ']']
    |> replaceChar '\x7b' ['\\', '\x7b']
    |> replaceChar '\x7d' ['\\', '\x7d']

/-- `_escape` on `String`s. -/
def escapeStr (s : String) : String :=
  String.mk (escapeText s.toList)

/-- The characters the claim lists as needing escaping (the single quote is
handled separately: it is replaced, not backslash-escaped). -/
def listedSpecial (c : Char) : Bool :=
  c == ':' || c == ';' || c == '\x22' || c == ',' || c == '%' ||
  c == '[' || c == ']' || c == '\x7b' || c == '\x7d'

/-- Scanning check: every listed special character is immediately preceded by
a backslash.  `prev` is the character just before the scanned suffix (`none`
at the very start of the string). -/
def escOk : Option Char → List Char → Bool
  | _, [] => true
  | prev, c :: rest =>
    (!listedSpecial c || prev == some '\\') && escOk (some c) rest

/-! ## Caption burn-in (`VideoEditor.insert_captions`) -/

/-- One caption dict `{"start": .., "end": .., "text": ..}`.  The Python key
`end` is a reserved word in Lean, so the field is called `stop`. -/
structure Caption where
  start : ℚ
  stop : ℚ
  text : String
deriving DecidableEq

/-- `x`/`y` positions accepted by `insert_captions`: an int passes through
literally, a string goes through the keyword table. -/
inductive PosVal where
  | int (n : Int)
  | str (s : String)
deriving DecidableEq

/-- `insert_captions._pos_x`. -/
def pos_x (padding_x : Int) (v : PosVal) : String :=
  match v with
  | .int n => toString n
  | .str s =>
    if s = "left" then toString padding_x
    else if s = "center" then "(w-text_w)/2"
    else if s = "right" then s!"(w-text_w)-{padding_x}"
    else s

/-- `insert_captions._pos_y`. -/
def pos_y (padding_y : Int) (v : PosVal) : String :=
  match v with
  | .int n => toString n
  | .str s =>
    if s = "top" then toString padding_y
    else if s = "center" then "(h-text_h)/2"
    else if s = "bottom" then s!"(h-text_h)-{padding_y}"
    else s

/-- The `drawtext=`-filter for one caption, with the styling parameters of
`insert_captions`.  Numeric `start`/`stop` are rendered with `toString`;
Python renders floats with its own repr, differing only in digits, which no
claim inspects. -/
def drawtextFilter (fontfile font : Option String) (fontsize : Int)
    (fontcolor : String) (borderw : Int) (bordercolor : String)
    (shadowx shadowy : Int) (x y : PosVal) (padding_x padding_y : Int)
    (text_align : String) (cap : Caption) : String :=
  let text := escapeStr cap.text
  let px := pos_x padding_x x
  let py := pos_y padding_y y
  let cs := toString cap.start
  let ce := toString cap.stop
  let font_opts : List String :=
    (match fontfile with
     | some ff => [s!"fontfile=\x27{ff}\x27"]
     | none =>
       match font with
       | some fo => [s!"font=\x27{fo}\x27"]
       | none => []) ++
    [s!"text={text}",
     s!"fontsize={fontsize}",
     s!"fontcolor={fontcolor}",
     s!"borderw={borderw}",
     s!"bordercolor={bordercolor}",
     s!"shadowx={shadowx}",
     s!"shadowy={shadowy}",
     s!"x={px}",
     s!"y={py}",
     s!"text_align={text_align}",
     s!"enable=\x27between(t,{cs},{ce})\x27"]
  "drawtext=" ++ String.intercalate ":" font_opts

/-- `VideoEditor.insert_captions` up to the subprocess call: builds the
chained drawtext filter and the full ffmpeg command.  The source performs no
validation of the captions (in particular none of `start < stop`), so the
result is always `Except.ok`; the `Except` shape matches the other
operations, where `.error` models a `ValueError` raised before any
subprocess is spawned. -/
def insert_captions_plan (gpuAvailable : Bool) (cpuCount : Option Nat)
    (input_path : String) (captions : List Caption)
    (fontfile font : Option String) (fontsize : Int) (fontcolor : String)
    (borderw : Int) (bordercolor : String) (shadowx shadowy : Int)
    (x y : PosVal) (padding_x padding_y : Int) (text_align : String)
    (output_path : String) : Except String (List String) :=
  let drawtext_filters := captions.map
    (drawtextFilter fontfile font fontsize fontcolor borderw bordercolor
      shadowx shadowy x y padding_x padding_y text_align)
  let filter_complex := String.intercalate "," drawtext_filters
  let codec := choose_encoder gpuAvailable cpuCount
  .ok (["ffmpeg", "-y",
        "-i", input_path,
        "-filter_complex", filter_complex,
        "-c:v", codec.1] ++ codec.2 ++
       ["-c:a", "copy",
        "-movflags", "+faststart",
        output_path])

/-! ## Concatenation (`VideoEditor.join`) -/

/-- `VideoEditor.join` up to its first subprocess call: fewer than two
inputs raise `ValueError` before anything is run; otherwise the fast
concat-demuxer command over the list file written to the workspace is
produced.  (The fallback to re-encoding depends on the runtime exit status
of that subprocess and is outside the static model.) -/
def join_plan (temp_dir : String) (inputs : List String) (output_path : String) :
    Except String (List String) :=
  if inputs.length < 2 then
    .error "Need at least two videos to join."
  else
    let concat_list := temp_dir ++ "/concat.txt"
    .ok ["ffmpeg", "-y",
         "-f", "concat", "-safe", "0",
         "-i", concat_list,
         "-c", "copy",
         output_path]

/-! ## Aspect-ratio change (`VideoEditor.change_ratio`) -/

/-- The ratio enumeration (`vertical` 9:16, `widescreen` 16:9, `ultrawide`
21:9); `none` for an unsupported keyword. -/
def ratio_enum (ratio : String) : Option (ℕ × ℕ) :=
  if ratio = "vertical" then some (9, 16)
  else if ratio = "widescreen" then some (16, 9)
  else if ratio = "ultrawide" then some (21, 9)
  else none

/-- The derived target pair as the spec words it: `(width, width * ratio_h /
ratio_w)` with integer truncation, for ratio numbers `rp = (ratio_w,
ratio_h)`.  (The source divides Python floats; for any realistic pixel
width the float result truncates to the same integer, so exact truncating
division models it.) -/
def spec_target_pair (rp : ℕ × ℕ) (width : ℕ) : ℕ × ℕ :=
  (width, width * rp.2 / rp.1)

/-- The crop-mode filter string of `change_ratio`. -/
def cropVf (w h : ℕ) : String :=
  s!"scale={w}:{h}:force_original_aspect_ratio=increase,crop={w}:{h}"

/-- The pad-mode (solid colour) filter string of `change_ratio`; the source
spells the identical template twice (once per branch of the even-dimension
adjustment). -/
def padColorVf (w h : ℕ) (color : String) : String :=
  s!"scale={w}:{h}:force_original_aspect_ratio=decrease,pad={w}:{h}:(ow-iw)/2:(oh-ih)/2:{color}"

/-- The pad-mode (blur background) complex filter graph of `change_ratio`. -/
def blurVf (w h : ℕ) (bs bp : Int) : String :=
  s!"[0:v]scale={w}:{h}:force_original_aspect_ratio=increase,crop={w}:{h},boxblur={bs}:{bp}[bg];[0:v]scale={w}:{h}:force_original_aspect_ratio=decrease[fg];[bg][fg]overlay=(W-w)/2:(H-h)/2"

/-- The `style` dictionary of `change_ratio` (absent keys are `none`; the
`isinstance` guards of the source are unrepresentable in the typed model
and noted where they matter). -/
structure Style where
  type : String
  color : Option String
  blur_strength : Option Int
  blur_power : Option Int
deriving DecidableEq

/-- The colour check of the pad/colour branch: `"black"` (case-insensitive)
or `#RRGGBB` with six hex digits. -/
def hexChar (c : Char) : Bool :=
  ("0123456789abcdefABCDEF".toList).contains c

/-- Python `str.lower()`, character-wise (ASCII case folding — the only case
the colour check exercises). -/
def strLower (s : String) : String :=
  String.mk (s.data.map Char.toLower)

/-- Python `s.startswith(pre)`, on the underlying character lists. -/
def strStarts (s pre : String) : Bool :=
  pre.data.isPrefixOf s.data

/-- `color.lower() == "black" or (color.startswith("#") and len(color) == 7
and all hex digits)` — the condition under which `change_ratio` does not
raise its colour `ValueError`. -/
def colorValid (color : String) : Bool :=
  strLower color == "black" ||
  (strStarts color "#" && color.length == 7 && (color.data.drop 1).all hexChar)

/-- The even-dimension adjustment: decrement by one if odd. -/
def evenAdj (n : ℕ) : ℕ :=
  if n % 2 = 0 then n else n - 1

/-- `VideoEditor.change_ratio` up to the subprocess call: argument
validation, target geometry, and the built filter string, returned together
with the `use_complex` flag (filter goes to `-filter_complex` instead of
`-vf`).  `.error` models the `ValueError`s the source raises before
`self._run`; output-path resolution and encoder choice do not affect the
filter and are omitted here. -/
def change_ratio_plan (ratio mode : String) (style : Option Style)
    (width : Option ℕ) : Except String (String × Bool) :=
  match ratio_enum ratio with
  | none =>
    .error "Unsupported ratio. Use \x27vertical\x27, \x27widescreen\x27, or \x27ultrawide\x27."
  | some target_ratio =>
    let w := width.getD 1080
    let target_w := w
    let target_h := w * target_ratio.2 / target_ratio.1
    if mode = "crop" then
      .ok (cropVf target_w target_h, false)
    else if mode = "pad" then
      let sty := style.getD ⟨"color", some "black", none, none⟩
      if sty.type = "color" then
        let color := sty.color.getD "black"
        if colorValid color then
          if target_w < target_h then
            .ok (padColorVf target_w target_h color, false)
          else
            .ok (padColorVf (evenAdj target_w) (evenAdj target_h) color, false)
        else
          .error "Color must be \x27black\x27 or a valid hex string like \x27#RRGGBB\x27."
      else if sty.type = "blur" then
        let bs := sty.blur_strength.getD 20
        let bp := sty.blur_power.getD 10
        .ok (blurVf target_w target_h bs bp, true)
      else
        .error "Invalid style[\x27type\x27]. Must be \x27color\x27, \x27blur\x27, or \x27image\x27."
    else
      .error "mode must be \x27pad\x27 or \x27crop\x27."

/-! ## Tempo-chain decomposition of the speed-change operation -/

/-- Modelled from the spec: the speed-change operation
(`change_speed_segment` and its atempo chain) is not present under `src/` —
no `setpts`/`atempo` code exists in the repository sources — so the
decomposition is modelled from the spec's words: "a requested factor outside
that range must be decomposed into repeated ×2 or ×0.5 stages plus one
residual stage, chained with commas; stages whose factor is 1.0 (no-op) are
omitted".  The per-stage factors for speed factor `f` (speed factors are
positive; nonpositive `f`, which the spec does not address, yields no
stages). -/
def tempoStages (f : ℚ) : List ℚ :=
  if h0 : f ≤ 0 then []
  else if h2 : 2 < f then 2 :: tempoStages (f / 2)
  else if h5 : f < 1 / 2 then 1 / 2 :: tempoStages (2 * f)
  else if _h1 : f = 1 then []
  else [f]
termination_by (⌈f⌉ + ⌈1 / f⌉).toNat
decreasing_by
  · have hf : 0 < f := not_le.mp h0
    have hc1 : ⌈1 / f⌉ = 1 := by
      rw [Int.ceil_eq_iff]
      constructor
      · push_cast
        have : (0:ℚ) < 1 / f := by positivity
        linarith
      · push_cast; rw [div_le_one hf]; linarith
    have hc2 : ⌈1 / (f / 2)⌉ = 1 := by
      rw [one_div_div, Int.ceil_eq_iff]
      constructor
      · push_cast
        have : (0:ℚ) < 2 / f := by positivity
        linarith
      · push_cast; rw [div_le_one hf]; linarith
    have h21 : f / 2 ≤ f - 1 := by linarith
    have hm := Int.ceil_le_ceil h21
    rw [Int.ceil_sub_one] at hm
    have hp : 0 < ⌈f / 2⌉ := Int.ceil_pos.mpr (by linarith)
    rw [hc1, hc2]
    omega
  · have hf : 0 < f := not_le.mp h0
    have hfi : 2 < 1 / f := by
      rw [lt_div_iff₀ hf]; linarith
    have hc1 : ⌈(2 * f : ℚ)⌉ = 1 := by
      rw [Int.ceil_eq_iff]
      constructor
      · push_cast
        have : (0:ℚ) < 2 * f := by positivity
        linarith
      · push_cast; linarith
    have hc0 : ⌈f⌉ = 1 := by
      rw [Int.ceil_eq_iff]
      constructor
      · push_cast; linarith
      · push_cast; linarith
    have heq : 1 / (2 * f) = 1 / f / 2 := by
      rw [div_div, mul_comm]
    have h21 : 1 / f / 2 ≤ 1 / f - 1 := by linarith
    have hm := Int.ceil_le_ceil h21
    rw [Int.ceil_sub_one] at hm
    have hp : 0 < ⌈1 / f / 2⌉ := Int.ceil_pos.mpr (by positivity)
    rw [hc1, hc0, heq]
    omega

/-- A stage factor obeying the claimed invariant: inside `[0.5, 2.0]` and not
the omitted no-op factor `1.0`. -/
def stageOk (s : ℚ) : Bool :=
  decide (1 / 2 ≤ s) && decide (s ≤ 2) && decide (s ≠ 1)

/-- Modelled from the spec: the audio filter string assembled from the
stages, comma-chained; when the decomposition yields zero stages, no audio
filter is applied (`none`). -/
def atempo_filter (f : ℚ) : Option String :=
  match tempoStages f with
  | [] => none
  | sts => some (String.intercalate "," (sts.map (fun r => s!"atempo={r}")))

end VE

/-! ## Theorems and supporting lemmas -/

namespace VE

lemma get_duration_fallback_eq_spec (parse : String → ℚ) (streams : List FFStream) :
    get_duration_fallback parse streams =
      match (streams.filterMap
          (fun s => if s.codec_type == "video" then truthyOpt s.duration else none)).head? with
      | some d => parse d
      | none => 0 := by
  induction streams with
  | nil => simp [get_duration_fallback]
  | cons s rest ih =>
    by_cases hv : s.codec_type = "video"
    · cases hd : s.duration with
      | none =>
        simp only [get_duration_fallback, List.filterMap_cons, hd, pyTruthyStr,
          Bool.and_false, Bool.false_eq_true, if_false, truthyOpt]
        simpa [truthyOpt, hd] using ih
      | some d =>
        by_cases he : d.isEmpty
        · simp only [get_duration_fallback, List.filterMap_cons, hd, pyTruthyStr, he,
            truthyOpt]
          simpa [truthyOpt, hd, he] using ih
        · simp only [get_duration_fallback, List.filterMap_cons, hv, hd, pyTruthyStr, he,
            truthyOpt]
          simp [hd, he]
    · have hb : (s.codec_type == "video") = false := by
        simp [hv]
      simp only [get_duration_fallback, List.filterMap_cons, hb, Bool.false_and,
        Bool.false_eq_true, if_false]
      simpa using ih

/-- Claim C7: for every media file, `get_duration` returns the container-level
duration when present; otherwise the first video stream with a present
duration field supplies the result; otherwise it returns exactly `0.0`.
Formalised as: the implementation agrees with the spec-side function
`spec_duration`, which is written directly from the spec's three-case
description.  "Present" is Python truthiness: a missing key and the empty
string count as absent. -/
theorem C7_get_duration_spec (parse : String → ℚ) (meta : FFProbe) :
    get_duration parse meta = spec_duration parse meta := by
  cases hf : meta.format_duration with
  | none =>
    simp [get_duration, spec_duration, hf, truthyOpt, get_duration_fallback_eq_spec]
  | some s =>
    by_cases he : s.isEmpty
    · simp [get_duration, spec_duration, hf, truthyOpt, he, get_duration_fallback_eq_spec]
    · simp [get_duration, spec_duration, hf, truthyOpt, he]

/-- Claim C8: the encoder choice is independent of GPU availability, and both
states yield the software codec `libx264` with preset `fast`, CRF `23`, and
thread count `max 1 (detected cpu count)`. -/
theorem C8_choose_encoder_constant (g₁ g₂ : Bool) (cpu : Option Nat) :
    choose_encoder g₁ cpu = choose_encoder g₂ cpu ∧
    choose_encoder g₁ cpu =
      ("libx264", ["-preset", "fast", "-crf", "23", "-threads",
        toString (max 1 (pyOrNat cpu 1))]) := by
  cases g₁ <;> cases g₂ <;> simp [choose_encoder]

/-- Claim C9: `cleanup` is idempotent — the second of two successive calls is
a no-op (and the model has no failure path: the source swallows every
per-file and directory-removal exception).  After the first call the tracked
set is empty, and the self-created workspace directory is gone
(`dir_on_disk = dir_on_disk && !own_temp`). -/
theorem C9_cleanup_idempotent (st : EditorState) :
    cleanup (cleanup st) = cleanup st ∧
    (cleanup st).temp_files = [] ∧
    (cleanup st).dir_on_disk = (st.dir_on_disk && !st.own_temp) := by
  obtain ⟨td, ot, tf, dk, c, dd⟩ := st
  cases ot <;> cases dd <;> simp [cleanup, List.filter_filter]

/-- Claim C4 (code bug exhibited): `replace_audio` invoked with a
caller-supplied explicit output path `/home/user/final.mp4`, on a fresh
editor, with `start_time = 5` past the probed video duration `3`: the source
executes `self._temp_files.add(output_path)` in the no-audio branch, so the
caller's path enters the tracked set, and the subsequent `cleanup` deletes
it from disk — contradicting the ownership rule that caller-supplied output
paths are never tracked or deleted. -/
theorem C4_caller_output_tracked_and_deleted :
    ((replace_audio_step freshEditor "in.mp4" "a.mp3"
        (some "/home/user/final.mp4") 3 10 5).2.2.temp_files.contains
      "/home/user/final.mp4" = true) ∧
    ((cleanup (replace_audio_step freshEditor "in.mp4" "a.mp3"
        (some "/home/user/final.mp4") 3 10 5).2.2).disk.contains
      "/home/user/final.mp4" = false) := by
  constructor <;> rfl

/-- Claim C5: whenever `start_time` is at or beyond the probed duration of
the source video, the command `replace_audio` builds is exactly the
no-audio-mapping command (`-map 0:v`, `-c:v copy`, `-an`): no audio stream
is mapped and the replacement audio file is not even an input.  The model
has no error path here — this branch is policy, not an exception. -/
theorem C5_replace_audio_no_audio_branch
    (parse : String → ℚ) (vmeta : FFProbe)
    (input_path audio_path output_path : String)
    (audio_duration start_time : ℚ)
    (h : get_duration parse vmeta ≤ start_time) :
    replace_audio_cmd input_path audio_path output_path
      (get_duration parse vmeta) audio_duration start_time =
      ["ffmpeg", "-y", "-i", input_path, "-map", "0:v", "-c:v", "copy", "-an",
        output_path] := by
  simp [replace_audio_cmd, h]

/-- Witness for C5 at a concrete probe result (container duration `7`,
`start_time = 8`). -/
theorem C5_witness :
    (get_duration (fun _ => 7) ⟨some "7", []⟩ ≤ 8) ∧
    replace_audio_cmd "v.mp4" "a.mp3" "o.mp4"
      (get_duration (fun _ => 7) ⟨some "7", []⟩) 5 8 =
      ["ffmpeg", "-y", "-i", "v.mp4", "-map", "0:v", "-c:v", "copy", "-an",
        "o.mp4"] :=
  ⟨by decide, C5_replace_audio_no_audio_branch (fun _ => 7) ⟨some "7", []⟩
    "v.mp4" "a.mp3" "o.mp4" 5 8 (by decide)⟩

lemma get_duration_fallback_eq_zero (parse : String → ℚ) (streams : List FFStream)
    (h : streams.all (fun s => !(s.codec_type == "video" && pyTruthyStr s.duration)) = true) :
    get_duration_fallback parse streams = 0 := by
  induction streams with
  | nil => rfl
  | cons s rest ih =>
    rw [List.all_cons, Bool.and_eq_true] at h
    obtain ⟨ha, hb⟩ := h
    rw [Bool.not_eq_true'] at ha
    simp [get_duration_fallback, ha, ih hb]

/-- Claim C10: when the probed metadata of the source video carries no
(truthy) duration anywhere, `get_duration` returns the sentinel `0.0`, and
then for every `start_time ≥ 0` — including the default `0.0` —
`replace_audio` takes the no-audio branch: the output command strips audio
(`-an`) and the replacement audio file does not occur in the command at
all, rather than treating `0.0` as "could not determine". -/
theorem C10_missing_duration_strips_audio
    (parse : String → ℚ) (vmeta : FFProbe)
    (input_path audio_path output_path : String)
    (audio_duration start_time : ℚ)
    (h1 : pyTruthyStr vmeta.format_duration = false)
    (h2 : vmeta.streams.all
      (fun s => !(s.codec_type == "video" && pyTruthyStr s.duration)) = true)
    (h3 : 0 ≤ start_time) :
    get_duration parse vmeta = 0 ∧
    replace_audio_cmd input_path audio_path output_path
      (get_duration parse vmeta) audio_duration start_time =
      ["ffmpeg", "-y", "-i", input_path, "-map", "0:v", "-c:v", "copy", "-an",
        output_path] := by
  have hz : get_duration parse vmeta = 0 := by
    cases hf : vmeta.format_duration with
    | none => simp [get_duration, hf, get_duration_fallback_eq_zero parse _ h2]
    | some s =>
      have he : s.isEmpty = true := by
        simpa [pyTruthyStr, hf] using h1
      simp [get_duration, hf, he, get_duration_fallback_eq_zero parse _ h2]
  refine ⟨hz, ?_⟩
  rw [hz]
  simp [replace_audio_cmd, h3]

/-- Witness for C10: a probe result with no container duration and a single
video stream lacking its own duration field, at the default
`start_time = 0`. -/
theorem C10_witness :
    pyTruthyStr (FFProbe.mk none [⟨"video", none⟩]).format_duration = false ∧
    (FFProbe.mk none [⟨"video", none⟩]).streams.all
      (fun s => !(s.codec_type == "video" && pyTruthyStr s.duration)) = true ∧
    (0 : ℚ) ≤ 0 ∧
    (get_duration (fun _ => 37) (FFProbe.mk none [⟨"video", none⟩]) = 0 ∧
      replace_audio_cmd "v.mp4" "a.mp3" "o.mp4"
        (get_duration (fun _ => 37) (FFProbe.mk none [⟨"video", none⟩])) 9 0 =
        ["ffmpeg", "-y", "-i", "v.mp4", "-map", "0:v", "-c:v", "copy", "-an",
          "o.mp4"]) :=
  ⟨by decide, by decide, by decide,
    C10_missing_duration_strips_audio (fun _ => 37) (FFProbe.mk none [⟨"video", none⟩])
      "v.mp4" "a.mp3" "o.mp4" 9 0 (by decide) (by decide) (by decide)⟩

/-- Claim C2 counterexample: `change_ratio("widescreen", mode="pad")` at the
default width 1080.  The derived target pair is `(1080, int(1080*9/16)) =
(1080, 607)`, but because `target_w ≥ target_h` the source applies the
even-dimension adjustment and the built filter string encodes `(1080, 606)`,
which is not the filter string at the derived target pair — so pad mode does
not always encode exactly the derived pair. -/
theorem C2_counterexample :
    change_ratio_plan "widescreen" "pad" none none =
      .ok (padColorVf 1080 606 "black", false) ∧
    padColorVf 1080 606 "black" ≠ padColorVf 1080 607 "black" :=
  ⟨rfl, by decide⟩

/-- Claim C2 as amended: for every supported ratio keyword and every base
width, crop mode encodes exactly the derived target pair `(tw, th)`; pad
mode (default solid-colour style) encodes exactly `(tw, th)` when
`tw < th`, and otherwise the even-adjusted pair (each component decremented
by one if odd). -/
theorem C2_amended_dims (ratio : String) (width : Option ℕ) (rp : ℕ × ℕ)
    (tw th : ℕ)
    (hr : ratio_enum ratio = some rp)
    (htw : tw = (spec_target_pair rp (width.getD 1080)).1)
    (hth : th = (spec_target_pair rp (width.getD 1080)).2) :
    change_ratio_plan ratio "crop" none width = .ok (cropVf tw th, false) ∧
    change_ratio_plan ratio "pad" none width =
      (if tw < th then .ok (padColorVf tw th "black", false)
       else .ok (padColorVf (evenAdj tw) (evenAdj th) "black", false)) := by
  subst htw hth
  have hb : colorValid "black" = true := by decide
  constructor
  · simp [change_ratio_plan, hr, spec_target_pair]
  · simp [change_ratio_plan, hr, spec_target_pair, hb]

/-- Witness for the amended C2 at `ratio = "widescreen"`, default width:
target pair `(1080, 607)`, pad encodes `(1080, 606)`. -/
theorem C2_amended_witness :
    ratio_enum "widescreen" = some (16, 9) ∧
    (1080 : ℕ) = (spec_target_pair (16, 9) ((none : Option ℕ).getD 1080)).1 ∧
    (607 : ℕ) = (spec_target_pair (16, 9) ((none : Option ℕ).getD 1080)).2 ∧
    (change_ratio_plan "widescreen" "crop" none none =
      .ok (cropVf 1080 607, false) ∧
    change_ratio_plan "widescreen" "pad" none none =
      (if (1080 : ℕ) < 607 then .ok (padColorVf 1080 607 "black", false)
       else .ok (padColorVf (evenAdj 1080) (evenAdj 607) "black", false))) :=
  ⟨by decide, by decide, by decide,
    C2_amended_dims "widescreen" none (16, 9) 1080 607 (by decide) (by decide)
      (by decide)⟩

/-- Claim C3 counterexample: a caption with `start = 2 ≥ end = 1` passed to
`insert_captions` does not raise a validation error — the operation builds
the ffmpeg drawtext command and proceeds to spawn it (`.ok`, and the
produced command is an `ffmpeg` invocation). -/
theorem C3_counterexample :
    (insert_captions_plan false (some 4) "in.mp4" [⟨2, 1, "hi"⟩] none none 32
        "white" 2 "black" 2 2 (.int 0) (.int 0) 10 10 "center"
        "out.mp4").isOk = true ∧
    ((insert_captions_plan false (some 4) "in.mp4" [⟨2, 1, "hi"⟩] none none 32
        "white" 2 "black" 2 2 (.int 0) (.int 0) 10 10 "center"
        "out.mp4").toOption.getD []).head? = some "ffmpeg" :=
  ⟨rfl, rfl⟩

/-- Claim C3 as amended: an unsupported ratio keyword, an invalid mode, or an
invalid colour string passed to `change_ratio`, and fewer than two inputs
passed to `join`, each yield the validation error before any subprocess is
spawned (`.error` carries no command) and are never retried; a caption with
`start ≥ end` passed to `insert_captions` is NOT validated — the command is
always built (`.ok`). -/
theorem C3_amended_validation
    (r1 mode1 mode2 color3 : String) (sty1 sty2 : Option Style)
    (w1 w2 w3 : Option ℕ) (inputs : List String) (td out4 : String)
    (g : Bool) (cc : Option Nat) (inp5 : String) (caps : List Caption)
    (ff fo : Option String) (fs : Int) (fc : String) (bw : Int) (bc : String)
    (sx sy : Int) (px py : PosVal) (padx pady : Int) (ta out5 : String)
    (h1 : ratio_enum r1 = none)
    (h2 : mode2 ≠ "crop") (h2' : mode2 ≠ "pad")
    (h3 : colorValid color3 = false)
    (h4 : inputs.length < 2) :
    change_ratio_plan r1 mode1 sty1 w1 =
      .error "Unsupported ratio. Use \x27vertical\x27, \x27widescreen\x27, or \x27ultrawide\x27." ∧
    change_ratio_plan "vertical" mode2 sty2 w2 =
      .error "mode must be \x27pad\x27 or \x27crop\x27." ∧
    change_ratio_plan "vertical" "pad" (some ⟨"color", some color3, none, none⟩) w3 =
      .error "Color must be \x27black\x27 or a valid hex string like \x27#RRGGBB\x27." ∧
    join_plan td inputs out4 = .error "Need at least two videos to join." ∧
    (insert_captions_plan g cc inp5 caps ff fo fs fc bw bc sx sy px py padx
      pady ta out5).isOk = true := by
  refine ⟨?_, ?_, ?_, ?_, rfl⟩
  · simp [change_ratio_plan, h1]
  · simp [change_ratio_plan, ratio_enum, h2, h2']
  · simp [change_ratio_plan, ratio_enum, h3]
  · simp [join_plan, h4]

/-- Witness for the amended C3: ratio `"square"`, mode `"stretch"`, colour
`"red"`, a single-element join list, and an out-of-order caption. -/
theorem C3_amended_witness :
    ratio_enum "square" = none ∧
    ("stretch" : String) ≠ "crop" ∧
    ("stretch" : String) ≠ "pad" ∧
    colorValid "red" = false ∧
    (["a.mp4"] : List String).length < 2 ∧
    (change_ratio_plan "square" "pad" none none =
      .error "Unsupported ratio. Use \x27vertical\x27, \x27widescreen\x27, or \x27ultrawide\x27." ∧
    change_ratio_plan "vertical" "stretch" none none =
      .error "mode must be \x27pad\x27 or \x27crop\x27." ∧
    change_ratio_plan "vertical" "pad" (some ⟨"color", some "red", none, none⟩) none =
      .error "Color must be \x27black\x27 or a valid hex string like \x27#RRGGBB\x27." ∧
    join_plan "/tmp/t" ["a.mp4"] "o.mp4" =
      .error "Need at least two videos to join." ∧
    (insert_captions_plan false (some 2) "v.mp4" [⟨2, 1, "late"⟩] none none 32
      "white" 2 "black" 2 2 (.int 0) (.int 0) 10 10 "center"
      "o2.mp4").isOk = true) :=
  ⟨by decide, by decide, by decide, by decide, by decide,
    C3_amended_validation "square" "pad" "stretch" "red" none none none none
      none ["a.mp4"] "/tmp/t" "o.mp4" false (some 2) "v.mp4" [⟨2, 1, "late"⟩]
      none none 32 "white" 2 "black" 2 2 (.int 0) (.int 0) 10 10 "center"
      "o2.mp4" (by decide) (by decide) (by decide) (by decide) (by decide)⟩

lemma replaceChar_append (c : Char) (r a b : List Char) :
    replaceChar c r (a ++ b) = replaceChar c r a ++ replaceChar c r b := by
  simp [replaceChar]

lemma escapeText_append (a b : List Char) :
    escapeText (a ++ b) = escapeText a ++ escapeText b := by
  simp [escapeText, replaceChar_append]

lemma escOk_after_slash (c : Char) (t : List Char) :
    escOk (some '\\') (c :: t) = escOk (some c) t := by
  simp [escOk]

lemma escOk_not_listed (prev : Option Char) (c : Char) (t : List Char)
    (h : listedSpecial c = false) :
    escOk prev (c :: t) = escOk (some c) t := by
  simp [escOk, h]

lemma escOk_block2 (prev : Option Char) (c : Char) (t : List Char) :
    escOk prev ('\\' :: c :: t) = escOk (some c) t := by
  rw [escOk_not_listed _ _ _ (by decide), escOk_after_slash]

lemma escapeText_good (s : List Char) : ∀ prev : Option Char,
    escOk prev (escapeText s) = true ∧ '\x27' ∉ escapeText s := by
  induction s with
  | nil =>
    intro prev
    exact ⟨rfl, by simp [escapeText, replaceChar]⟩
  | cons x rest ih =>
    intro prev
    have hsplit : escapeText (x :: rest) = escapeText [x] ++ escapeText rest := by
      simpa using escapeText_append [x] rest
    rw [hsplit]
    by_cases h1 : x = ':'
    · subst h1
      have e : escapeText [':'] = ['\\', '\\', ':'] := by decide
      rw [e]
      simp only [List.cons_append, List.nil_append]
      refine ⟨?_, ?_⟩
      · rw [escOk_block2, escOk_after_slash]
        exact (ih _).1
      · simp [(ih prev).2]
    by_cases h2 : x = ';'
    · subst h2
      have e : escapeText [';'] = ['\\', ';'] := by decide
      rw [e]
      simp only [List.cons_append, List.nil_append]
      refine ⟨?_, ?_⟩
      · rw [escOk_block2]
        exact (ih _).1
      · simp [(ih prev).2]
    by_cases h3 : x = '\x22'
    · subst h3
      have e : escapeText ['\x22'] = ['\\', '\x22'] := by decide
      rw [e]
      simp only [List.cons_append, List.nil_append]
      refine ⟨?_, ?_⟩
      · rw [escOk_block2]
        exact (ih _).1
      · simp [(ih prev).2]
    by_cases h4 : x = ','
    · subst h4
      have e : escapeText [','] = ['\\', ','] := by decide
      rw [e]
      simp only [List.cons_append, List.nil_append]
      refine ⟨?_, ?_⟩
      · rw [escOk_block2]
        exact (ih _).1
      · simp [(ih prev).2]
    by_cases h5 : x = '\x27'
    · subst h5
      have e : escapeText ['\x27'] = ['’'] := by decide
      rw [e]
      simp only [List.cons_append, List.nil_append]
      refine ⟨?_, ?_⟩
      · rw [escOk_not_listed _ _ _ (by decide)]
        exact (ih _).1
      · simp [(ih prev).2]
    by_cases h6 : x = '%'
    · subst h6
      have e : escapeText ['%'] = ['\\', '\\', '\\', '\\', '\\', '%'] := by decide
      rw [e]
      simp only [List.cons_append, List.nil_append]
      refine ⟨?_, ?_⟩
      · rw [escOk_block2, escOk_after_slash, escOk_after_slash, escOk_after_slash,
          escOk_after_slash]
        exact (ih _).1
      · simp [(ih prev).2]
    by_cases h7 : x = '['
    · subst h7
      have e : escapeText ['['] = ['\\', '['] := by decide
      rw [e]
      simp only [List.cons_append, List.nil_append]
      refine ⟨?_, ?_⟩
      · rw [escOk_block2]
        exact (ih _).1
      · simp [(ih prev).2]
    by_cases h8 : x = ']'
    · subst h8
      have e : escapeText [']'] = ['\\', ']'] := by decide
      rw [e]
      simp only [List.cons_append, List.nil_append]
      refine ⟨?_, ?_⟩
      · rw [escOk_block2]
        exact (ih _).1
      · simp [(ih prev).2]
    by_cases h9 : x = '\x7b'
    · subst h9
      have e : escapeText ['\x7b'] = ['\\', '\x7b'] := by decide
      rw [e]
      simp only [List.cons_append, List.nil_append]
      refine ⟨?_, ?_⟩
      · rw [escOk_block2]
        exact (ih _).1
      · simp [(ih prev).2]
    by_cases h10 : x = '\x7d'
    · subst h10
      have e : escapeText ['\x7d'] = ['\\', '\x7d'] := by decide
      rw [e]
      simp only [List.cons_append, List.nil_append]
      refine ⟨?_, ?_⟩
      · rw [escOk_block2]
        exact (ih _).1
      · simp [(ih prev).2]
    have hx : escapeText [x] = [x] := by
      simp [escapeText, replaceChar, h1, h2, h3, h4, h5, h6, h7, h8, h9, h10]
    rw [hx]
    simp only [List.cons_append, List.nil_append]
    have hnl : listedSpecial x = false := by
      simp [listedSpecial, h1, h2, h3, h4, h6, h7, h8, h9, h10]
    refine ⟨?_, ?_⟩
    · rw [escOk_not_listed _ _ _ hnl]
      exact (ih _).1
    · simp [(ih prev).2, Ne.symm h5]

theorem tempoStages_sound (f : ℚ) :
    0 < f → (tempoStages f).prod = f ∧ (tempoStages f).all stageOk = true := by
  induction f using tempoStages.induct with
  | case1 x hx =>
    intro hf
    exact absurd hx (not_le.mpr hf)
  | case2 x h0 h2 ih =>
    intro hf
    obtain ⟨ip, ia⟩ := ih (by positivity)
    rw [tempoStages]
    simp only [dif_neg h0, dif_pos h2]
    refine ⟨?_, ?_⟩
    · rw [List.prod_cons, ip]; ring
    · have h2ok : stageOk 2 = true := by
        simp only [stageOk, Bool.and_eq_true, decide_eq_true_eq]
        norm_num
      rw [List.all_cons, h2ok, Bool.true_and]
      exact ia
  | case3 x h0 h2 h5 ih =>
    intro hf
    obtain ⟨ip, ia⟩ := ih (by positivity)
    rw [tempoStages]
    simp only [dif_neg h0, dif_neg h2, dif_pos h5]
    refine ⟨?_, ?_⟩
    · rw [List.prod_cons, ip]; ring
    · have hok : stageOk (1 / 2) = true := by
        simp only [stageOk, Bool.and_eq_true, decide_eq_true_eq]
        norm_num
      rw [List.all_cons, hok, Bool.true_and]
      exact ia
  | case4 a b c =>
    intro hf
    rw [tempoStages]
    simp only [dif_neg a, dif_neg b, dif_neg c, dif_pos rfl]
    simp
  | case5 x h0 h2 h5 h1 =>
    intro hf
    rw [tempoStages]
    simp only [dif_neg h0, dif_neg h2, dif_neg h5, dif_neg h1]
    refine ⟨by simp, ?_⟩
    have hok : stageOk x = true := by
      simp only [stageOk, Bool.and_eq_true, decide_eq_true_eq]
      exact ⟨⟨le_of_not_lt h5, le_of_not_lt h2⟩, h1⟩
    rw [List.all_cons, hok, Bool.true_and]
    rfl

/-- Claim C1 (spec-modelled — the speed-change code is absent from `src/`):
for every positive speed factor `f`, the tempo-chain decomposition's stage
factors multiply to exactly `f` (exact rational arithmetic, hence within any
floating-point tolerance), every stage factor lies in `[0.5, 2.0]` and the
no-op factor `1.0` never occurs as a stage, and the audio filter is absent
exactly when the decomposition yields zero stages. -/
theorem C1_tempo_chain (f : ℚ) (hf : 0 < f) :
    (tempoStages f).prod = f ∧
    (tempoStages f).all stageOk = true ∧
    (atempo_filter f).isNone = (tempoStages f).isEmpty := by
  obtain ⟨hp, ha⟩ := tempoStages_sound f hf
  refine ⟨hp, ha, ?_⟩
  cases h : tempoStages f <;> simp [atempo_filter, h]

/-- Witness for C1 at the concrete speed factor `5` (stages `[2, 2, 5/4]`). -/
theorem C1_witness :
    (0 : ℚ) < 5 ∧
    ((tempoStages 5).prod = 5 ∧
     (tempoStages 5).all stageOk = true ∧
     (atempo_filter 5).isNone = (tempoStages 5).isEmpty) :=
  ⟨by norm_num, C1_tempo_chain 5 (by norm_num)⟩

/-- Claim C6: the caption escaping transform neutralizes every special
filter-graph character: in the escaped output every occurrence of colon,
semicolon, double quote, comma, percent, and the four bracket/brace
characters is immediately preceded by a backslash (the scanning predicate
`escOk`), and no raw single quote remains (each was replaced by the Unicode
apostrophe U+2019). -/
theorem C6_escape_neutralizes (s : List Char) :
    escOk none (escapeText s) = true ∧ '\x27' ∉ escapeText s :=
  escapeText_good s none

end VE
